import Mathlib

/-!
Shallow embedding of the VentureOneTech/Transcricao transcription service
(`src/transcription_service.py` and `src/app.py`) and proofs about the
claims of its specification.

Conventions of the embedding:
- Machine integers are `Nat` (all quantities involved — millisecond offsets,
  progress percentages, attempt counters — are non-negative in the source).
- Wall-clock readings (`time.time() - start_time`, a float of seconds) are
  modelled as elapsed milliseconds (`Nat`); `int(elapsed * k)` on a float of
  seconds is `elapsedMs * k / 1000` (exact floor of the rational value; for
  the coefficient `0.3` used on integer percentages `0..100`, the double
  rounding of Python agrees with the exact value `p * 3 / 10` at every input
  in range).
- External effects (the ffmpeg subprocess, HTTP requests, the filesystem)
  are modelled by an environment `RunEnv` recording the outcome of each
  external interaction; the state mutations of the shared `job_status`
  dictionary are recorded as an explicit trace of the values written to the
  `progress` field.
-/

namespace Transcricao

/-- Remote transcription status, the `status` field of a poll response.
The provider contract (§6 of the design) fixes the alphabet
`queued / processing / completed / error`. -/
inductive RemoteStatus where
  | queued
  | processing
  | completed
  | error
deriving DecidableEq

/-- One utterance of the transcript payload, the dictionaries of the
`utterances` array.  Every field is optional because the formatter reads
each one with `dict.get` and a default (`"A"`, `0`, `0`, `""`). -/
structure Utterance where
  speaker : Option String
  start : Option Nat
  «end» : Option Nat
  text : Option String
deriving DecidableEq

/-- The parsed JSON payload of a completed transcription
(`transcript_data` in the source).  `confidence` is a number in `[0,1]`;
it is modelled as a rational. -/
structure TranscriptData where
  text : Option String
  language_code : Option String
  confidence : Option Rat
  utterances : List Utterance
deriving DecidableEq

/-- `f"{n:02d}"` for a natural number: zero-pad to (at least) two digits;
wider numbers are printed in full. -/
def pad2 (n : Nat) : String :=
  if n < 10 then "0" ++ toString n else toString n

/-- Lines 251–261 of `save_transcript`: the offset value is split into
hours/minutes/seconds by integer division and rendered `HH:MM:SS`.
The source applies this directly to the raw `start`/`end` values
(no division by 1000), so `t` here is the raw offset from the payload. -/
def formatHMS (t : Nat) : String :=
  pad2 (t / 3600) ++ ":" ++ pad2 (t % 3600 / 60) ++ ":" ++ pad2 (t % 60)

/-- One rendered segment line of the report
(`f"[{start_time} - {end_time}] Speaker {speaker}: {text_segment}\n\n"`),
with the `dict.get` defaults of lines 244–263. -/
def renderUtterance (u : Utterance) : String :=
  "[" ++ formatHMS (u.start.getD 0) ++ " - " ++ formatHMS (u.«end».getD 0) ++
    "] Speaker " ++ u.speaker.getD "A" ++ ": " ++ u.text.getD "" ++ "\n\n"

/-- Sort key of `sorted(utterances, key=lambda x: x.get("start", 0))`. -/
def startKey (u : Utterance) : Nat :=
  u.start.getD 0

/-- Comparison relation of the sort on utterances. -/
def uLe (u v : Utterance) : Prop :=
  startKey u ≤ startKey v

instance : DecidableRel uLe :=
  fun u v => Nat.decLe (startKey u) (startKey v)

instance : IsTotal Utterance uLe :=
  ⟨fun u v => Nat.le_total (startKey u) (startKey v)⟩

instance : IsTrans Utterance uLe :=
  ⟨fun _ _ _ h h2 => Nat.le_trans h h2⟩

/-- Line 240: `sorted(utterances, key=lambda x: x.get("start", 0))`.
Python's `sorted` is a stable sort by the key; a stable sort by a total
preorder is extensionally unique, so it is modelled by the (stable)
insertion sort on the relation `uLe`. -/
def sortUtterances (us : List Utterance) : List Utterance :=
  List.insertionSort uLe us

/-- Line 235: `len(set(u.get('speaker', 'A') for u in utterances))`. -/
def speakersSetLen (us : List Utterance) : Nat :=
  ((us.map (fun u => u.speaker.getD "A")).toFinset).card

/-- The quantity named by the spec: the cardinality of the set of distinct
speaker labels across the utterances. -/
def distinctSpeakerLabels (us : List Utterance) : Finset String :=
  (us.map (fun u => u.speaker.getD "A")).toFinset

/-- Line 338: `len(set(u.get('speaker', 'A') for u in utterances)) if
utterances else 0`, the `speakers_count` of the orchestrator's success
result. -/
def speakers_count_of (us : List Utterance) : Nat :=
  if us.isEmpty then 0 else speakersSetLen us

/-- Lines 234–235: the `Total de falantes:` line of the report, emitted only
when the utterance list is non-empty (Python truthiness of the list). -/
def speakersLine (us : List Utterance) : String :=
  if us.isEmpty then "" else "Total de falantes: " ++ toString (speakersSetLen us) ++ "\n"

/-- Two-decimal rendering of the confidence value (`f"{confidence:.2f}"`).
The payload's confidence lies in `[0,1]`; for such values the rendering is
the rounded number of hundredths.  (Python rounds the float half-to-even;
the tie-breaking detail is immaterial to every claim, which never inspects
this line's digits.) -/
def formatConfidence (c : Rat) : String :=
  let n := (round (c * 100) : Int)
  toString (n / 100) ++ "." ++ pad2 (n % 100).natAbs

/-- Lines 230–231: the detected-language line, present only when the payload
has a `language_code` field. -/
def languageLine (d : TranscriptData) : String :=
  match d.language_code with
  | some lc => "Idioma detectado: " ++ lc ++ "\n"
  | none => ""

/-- Lines 232–233: the confidence line, present only when the payload has a
`confidence` field. -/
def confidenceLine (d : TranscriptData) : String :=
  match d.confidence with
  | some c => "Confiança: " ++ formatConfidence c ++ "\n"
  | none => ""

/-- The full report text built by `save_transcript` (lines 227–265):
header, optional language/confidence/speaker-count lines, the segments
header, then one rendered line per utterance in sorted order.  This is the
`content` string that the function writes to the output file. -/
def saveTranscriptContent (d : TranscriptData) : String :=
  "=== TRANSCRIÇÃO ASSEMBLYAI ===\n\n" ++
    languageLine d ++ confidenceLine d ++ speakersLine d.utterances ++
    "\n=== SEGMENTOS COM FALANTES ===\n\n" ++
    String.join ((sortUtterances d.utterances).map renderUtterance)

/-- `save_transcript` (lines 214–272): computes the output path from the
current clock reading (`datetime.now().strftime(...)`, passed here as the
pre-rendered string `now`) and the stem of the original filename, and
returns the pair (output path, report text).  Only the path depends on the
clock. -/
def save_transcript (now : String) (d : TranscriptData) (origStem : String) :
    String × String :=
  ("results/" ++ now ++ "_" ++ origStem ++ "_transcript.txt", saveTranscriptContent d)

/-- Outcome of one run of `transcribe_audio` (the dict
`{'success': ..., ...}` it returns): either the success record
(result file path, optional language code, speaker count) or the failure
record carrying the error message. -/
inductive RunResult where
  | ok (transcriptFile : String) (language : Option String) (speakers : Nat)
  | fail (err : String)
deriving DecidableEq

/-- Outcome of `transcribe_audio_api`.  The source returns the payload on
`completed` and `None` otherwise, but the `None` arises at three distinct
return sites (submit request refused, provider-reported `error`, polling
budget exhausted) which the embedding keeps apart. -/
inductive ApiResult where
  | ok (payload : TranscriptData)
  | submitFailed
  | remoteError
  | timedOut
deriving DecidableEq

/-- Environment of one orchestrator run: the outcome of every external
interaction the run performs.  Functions over `Nat` give the value observed
at the i-th polling iteration. -/
structure RunEnv where
  /-- `Path(file_path).suffix` of the submitted file. -/
  suffix : String
  /-- Elapsed wall-clock milliseconds at each pass of the progress loop of
  `convert_to_mp3` while the ffmpeg process is still running. -/
  convElapsed : List Nat
  /-- Whether the ffmpeg process exited with return code 0. -/
  convExitOk : Bool
  /-- Whether a file exists at the `.mp3` output path after the ffmpeg
  process has exited (`converted_file.exists()`; ffmpeg `-y` may leave a
  partial output file behind even on failure). -/
  convFileMade : Bool
  /-- Whether the upload POST returned HTTP 200. -/
  uploadOk : Bool
  /-- Whether the transcription-submission POST returned HTTP 200. -/
  submitOk : Bool
  /-- Remote `status` reported by the i-th poll. -/
  resp : Nat → RemoteStatus
  /-- Elapsed wall-clock milliseconds since the start of polling, read at
  the i-th poll. -/
  pollElapsed : Nat → Nat
  /-- The parsed payload of the poll response that reports `completed`. -/
  payload : TranscriptData
  /-- Whether writing the transcript file succeeds. -/
  saveOk : Bool
  /-- `datetime.now().strftime("%Y%m%d_%H%M%S")` at save time. -/
  now : String
  /-- `Path(original_filename).stem` of the submitted file. -/
  origStem : String

/-- Lines 283, 330: the suffixes that trigger conversion. -/
def conversionSuffixes : List String :=
  [".m4a", ".aac", ".ogg", ".opus"]

/-- `s.lower()` on a suffix string, character by character. -/
def toLowerStr (s : String) : String :=
  ⟨s.data.map Char.toLower⟩

/-- `input_path.suffix.lower() in ['.m4a', '.aac', '.ogg', '.opus']`. -/
def needsConversion (suffix : String) : Bool :=
  conversionSuffixes.contains (toLowerStr suffix)

/-- The values yielded by the generator `convert_to_mp3` (lines 63–79):
`min(int(elapsed * 10), 90)` at each pass of the progress loop while the
process runs, then `100` exactly when the process exits with code 0. -/
def convertYields (env : RunEnv) : List Nat :=
  env.convElapsed.map (fun t => min (t / 100) 90) ++
    (if env.convExitOk then [100] else [])

/-- Lines 169–181: progress synthesised from the remote status and the
elapsed polling time (`base_progress = 55`). -/
def pollProgress (s : RemoteStatus) (elapsedMs : Nat) : Nat :=
  match s with
  | .queued => 55 + min (elapsedMs * 2 / 1000) 10
  | .processing => 55 + 10 + min (elapsedMs * 3 / 1000) 25
  | _ => 55 + 35

/-- Line 185: the value actually written to `job_status['progress']` at
poll `i`, `min(progress, 90)`. -/
def pollWrite (env : RunEnv) (i : Nat) : Nat :=
  min (pollProgress (env.resp i) (env.pollElapsed i)) 90

/-- Observable trace of the polling loop: the progress values written, the
sleep durations performed, the number of poll requests issued and the
outcome. -/
structure PollTrace where
  writes : List Nat
  sleeps : List Nat
  polls : Nat
  result : ApiResult
deriving DecidableEq

/-- The polling loop of `transcribe_audio_api` (lines 156–208), polling
from attempt index `i` with `n` attempts remaining (the source starts at
`i = 0` with `n = 60`).  Each iteration issues one poll, writes
`min(progress, 90)`; on `completed` it additionally writes `95` and returns
the payload, on `error` it returns the remote-error outcome, otherwise it
sleeps 5 seconds and continues; an exhausted budget is the timeout
outcome. -/
def pollLoop (env : RunEnv) : Nat → Nat → PollTrace
  | _, 0 => ⟨[], [], 0, .timedOut⟩
  | i, n + 1 =>
    let w := pollWrite env i
    match env.resp i with
    | .completed => ⟨[w, 95], [], 1, .ok env.payload⟩
    | .error => ⟨[w], [], 1, .remoteError⟩
    | _ =>
      let t := pollLoop env (i + 1) n
      ⟨w :: t.writes, 5 :: t.sleeps, t.polls + 1, t.result⟩

/-- `transcribe_audio_api` (lines 117–212): writes progress 55, submits the
transcription request (non-200 returns `None`), then runs the polling loop
with a budget of 60 attempts.  Returns the progress writes it performed and
the outcome. -/
def transcribe_audio_api (env : RunEnv) : List Nat × ApiResult :=
  if env.submitOk then
    let t := pollLoop env 0 60
    (55 :: t.writes, t.result)
  else
    ([55], .submitFailed)

/-- Observable effects of one `transcribe_audio` run: the progress values
written to the job record, whether the upload endpoint was invoked, and
whether the converted temporary file was unlinked. -/
structure RunEffects where
  writes : List Nat
  uploadAttempted : Bool
  unlinkAttempted : Bool
deriving DecidableEq

/-- The tail of `transcribe_audio` after the conversion block
(lines 302–351): write 40 and upload (`upload_file` writes 50 on success),
write 50, transcribe, write 95, save, unlink the converted file when the
input needed conversion, write 100 and return the success record; each
failing step short-circuits with its error message. -/
def uploadAndTranscribe (env : RunEnv) (needsConv : Bool) (convW : List Nat) :
    RunResult × RunEffects :=
  let w1 := convW ++ [40]
  if env.uploadOk then
    let w2 := w1 ++ [50, 50]
    let api := transcribe_audio_api env
    match api.2 with
    | .ok payload =>
      let w3 := w2 ++ api.1 ++ [95]
      if env.saveOk then
        (.ok (save_transcript env.now payload env.origStem).1 payload.language_code
            (speakers_count_of payload.utterances),
          ⟨w3 ++ [100], true, needsConv⟩)
      else
        (.fail "Falha ao salvar transcrição", ⟨w3, true, false⟩)
    | _ => (.fail "Falha na transcrição", ⟨w2 ++ api.1, true, false⟩)
  else
    (.fail "Falha no upload", ⟨w1, true, false⟩)

/-- `transcribe_audio` (lines 278–355).  When the suffix requires
conversion, the progress loop writes `10 + int(p * 0.3)` for each yielded
`p`, and the only success check is `converted_file.exists()` (the ffmpeg
return code consumed by the generator is not examined by this caller). -/
def transcribe_audio (env : RunEnv) : RunResult × RunEffects :=
  if needsConversion env.suffix then
    let convW := (convertYields env).map (fun p => 10 + p * 3 / 10)
    if env.convFileMade then
      uploadAndTranscribe env true convW
    else
      (.fail "Falha na conversão", ⟨convW, false, false⟩)
  else
    uploadAndTranscribe env false []

/-- Job status strings of `app.py` (`'uploaded' / 'processing' /
'completed' / 'error'`). -/
inductive JobStatus where
  | uploaded
  | processing
  | completed
  | error
deriving DecidableEq

/-- One entry of the `jobs_status` dictionary of `app.py`. -/
structure Job where
  status : JobStatus
  filename : String
  filepath : String
  progress : Nat
  message : String
  created_at : String
  result_file : Option String
  language_code : Option String
  completed_at : Option String
deriving DecidableEq

/-- Response of the `/transcribe/<job_id>` endpoint. -/
inductive StartResp where
  | notFound
  | alreadyProcessed
  | started
deriving DecidableEq

/-- Dictionary lookup `jobs_status[job_id]` on the job map. -/
def lookupJob (jobs : List (String × Job)) (jobId : String) : Option Job :=
  (jobs.find? (fun p => p.1 == jobId)).map (fun p => p.2)

/-- In-place update of one entry of the job map. -/
def updateJob (jobs : List (String × Job)) (jobId : String) (j : Job) :
    List (String × Job) :=
  jobs.map (fun p => if p.1 == jobId then (p.1, j) else p)

/-- `start_transcription` (`app.py` lines 92–121): unknown ids are
rejected with 404; a job whose status is not `'uploaded'` is rejected with
400 `'Job já processado'` before any mutation; otherwise the job is moved
to `'processing'` with progress 0 and the background run is started. -/
def start_transcription (jobs : List (String × Job)) (jobId : String) :
    StartResp × List (String × Job) :=
  match lookupJob jobs jobId with
  | none => (.notFound, jobs)
  | some job =>
    if job.status == .uploaded then
      (.started,
        updateJob jobs jobId
          { job with status := .processing, progress := 0,
                     message := "Iniciando transcrição..." })
    else
      (.alreadyProcessed, jobs)

/-- `process_transcription` (`app.py` lines 123–150): write progress 10,
run `transcribe_audio`, and finish the job record according to the
outcome.  Returns the final job record together with the full sequence of
progress values this background run writes (its own writes and those of
`transcribe_audio`). -/
def process_transcription (env : RunEnv) (job : Job) : Job × List Nat :=
  let j1 := { job with progress := 10, message := "Convertendo arquivo..." }
  let r := transcribe_audio env
  match r.1 with
  | .ok file lg _ =>
    ({ j1 with status := .completed, progress := 100,
               message := "Transcrição concluída!", result_file := some file,
               language_code := lg, completed_at := some env.now },
      10 :: r.2.writes ++ [100])
  | .fail e =>
    ({ j1 with status := .error, message := "Erro: " ++ e,
               progress := (10 :: r.2.writes).getLastD 0 },
      10 :: r.2.writes)

/-- The complete sequence of values written to the job's `progress` field
during one run: `start_transcription` writes 0, then the background thread
(`process_transcription`) performs the rest. -/
def runProgressWrites (env : RunEnv) (job : Job) : List Nat :=
  0 :: (process_transcription env job).2

/-! ### Concrete inputs used by witnesses and counterexamples -/

/-- A trivial transcript payload. -/
def payload0 : TranscriptData :=
  ⟨some "ola", some "pt", none, [⟨some "A", some 0, some 1000, some "ola"⟩]⟩

/-- A concrete job record as it stands when the background run begins. -/
def job0 : Job :=
  ⟨.processing, "a.mp3", "uploads/20250101_000000_a.mp3", 0,
    "Iniciando transcrição...", "2025-01-01T00:00:00", none, none, none⟩

/-- Run of an `.mp3` input in which the remote status regresses from
`processing` back to `queued` before completing. -/
def cEnv2 : RunEnv :=
  { suffix := ".mp3", convElapsed := [], convExitOk := true, convFileMade := true,
    uploadOk := true, submitOk := true,
    resp := fun i => if i < 2 then .processing else if i = 2 then .queued else .completed,
    pollElapsed := fun i => i * 5000,
    payload := payload0, saveOk := true,
    now := "20250101_000000", origStem := "a" }

/-- A fully successful `.ogg` run (conversion, upload, immediate
completion). -/
def wEnv2 : RunEnv :=
  { suffix := ".ogg", convElapsed := [0, 1000], convExitOk := true, convFileMade := true,
    uploadOk := true, submitOk := true,
    resp := fun _ => .completed,
    pollElapsed := fun _ => 0,
    payload := payload0, saveOk := true,
    now := "20250101_000000", origStem := "a" }

/-- An `.ogg` run whose conversion succeeds (output file produced) but
whose upload request is refused. -/
def cEnv3 : RunEnv :=
  { suffix := ".ogg", convElapsed := [0], convExitOk := true, convFileMade := true,
    uploadOk := false, submitOk := true,
    resp := fun _ => .completed,
    pollElapsed := fun _ => 0,
    payload := payload0, saveOk := true,
    now := "20250101_000000", origStem := "a" }

/-- An `.ogg` run in which ffmpeg exits with a non-zero code but leaves a
(partial) output file at the `.mp3` path; every later step succeeds. -/
def cEnv4 : RunEnv :=
  { suffix := ".ogg", convElapsed := [0], convExitOk := false, convFileMade := true,
    uploadOk := true, submitOk := true,
    resp := fun _ => .completed,
    pollElapsed := fun _ => 0,
    payload := payload0, saveOk := true,
    now := "20250101_000000", origStem := "a" }

/-- A run in which every poll reports `processing`, so the polling budget
is exhausted. -/
def wEnv5 : RunEnv :=
  { suffix := ".mp3", convElapsed := [], convExitOk := true, convFileMade := true,
    uploadOk := true, submitOk := true,
    resp := fun _ => .processing,
    pollElapsed := fun i => i * 5000,
    payload := payload0, saveOk := true,
    now := "20250101_000000", origStem := "a" }

/-- The spec's worked example: utterance starts `[5000, 1000, 3000]`. -/
def exampleUtterances : List Utterance :=
  [⟨some "A", some 5000, some 6000, some "x"⟩,
   ⟨some "B", some 1000, some 2000, some "y"⟩,
   ⟨some "C", some 3000, some 4000, some "z"⟩]

/-- A job that already finished. -/
def job9 : Job :=
  ⟨.completed, "a.mp3", "uploads/20250101_000000_a.mp3", 100,
    "Transcrição concluída!", "2025-01-01T00:00:00",
    some "results/20250101_000100_a_transcript.txt", some "pt",
    some "2025-01-01T00:01:00"⟩

/-- A job map holding the finished job under id `"j1"`. -/
def jobs9 : List (String × Job) :=
  [("j1", job9)]

/-! ### Helper lemmas -/

theorem mem_of_headOpt {l : List Nat} {y : Nat} (h : y ∈ l.head?) : y ∈ l := by
  cases l with
  | nil => simp at h
  | cons a t =>
    simp only [List.head?, Option.mem_def, Option.some.injEq] at h
    simp [h]

theorem mem_of_lastOpt : ∀ {l : List Nat} {y : Nat}, y ∈ l.getLast? → y ∈ l
  | [], y, h => by simp at h
  | [a], y, h => by
    simp only [List.getLast?_singleton, Option.mem_def, Option.some.injEq] at h
    simp [h]
  | a :: b :: t, y, h => by
    rw [List.getLast?_cons_cons] at h
    exact List.mem_cons_of_mem a (mem_of_lastOpt h)

/-- Two non-decreasing segments separated by a threshold `m` concatenate to
a non-decreasing list. -/
theorem chain_le_append {l1 l2 : List Nat} (m : Nat)
    (h1 : List.Chain' (fun a b => a ≤ b) l1)
    (h2 : List.Chain' (fun a b => a ≤ b) l2)
    (hb1 : ∀ x ∈ l1, x ≤ m) (hb2 : ∀ y ∈ l2, m ≤ y) :
    List.Chain' (fun a b => a ≤ b) (l1 ++ l2) :=
  h1.append h2 fun x hx y hy =>
    Nat.le_trans (hb1 x (mem_of_lastOpt hx)) (hb2 y (mem_of_headOpt hy))

/-- `chain_le_append` packaged with element bounds for the concatenation. -/
theorem chainSeg_append (a m b : Nat) {l1 l2 : List Nat}
    (hc1 : List.Chain' (fun x y => x ≤ y) l1)
    (hc2 : List.Chain' (fun x y => x ≤ y) l2)
    (hb1 : ∀ x ∈ l1, a ≤ x ∧ x ≤ m) (hb2 : ∀ x ∈ l2, m ≤ x ∧ x ≤ b)
    (ham : a ≤ m) (hmb : m ≤ b) :
    List.Chain' (fun x y => x ≤ y) (l1 ++ l2) ∧ ∀ x ∈ l1 ++ l2, a ≤ x ∧ x ≤ b := by
  refine ⟨chain_le_append m hc1 hc2 (fun x hx => (hb1 x hx).2) (fun y hy => (hb2 y hy).1), ?_⟩
  intro x hx
  rcases List.mem_append.mp hx with h | h
  · exact ⟨(hb1 x h).1, Nat.le_trans (hb1 x h).2 hmb⟩
  · exact ⟨Nat.le_trans ham (hb2 x h).1, (hb2 x h).2⟩

/-! ### Claim theorems -/

/-- Claim C1 (code bug): the formatter does not divide the millisecond
offsets by 1000 before splitting into hours/minutes/seconds; an utterance
with `start_offset_ms = 3723000` renders its start timestamp as
`1034:10:00`, not as the `01:02:03` the claim states. -/
theorem timestamp_renders_ms_as_seconds :
    formatHMS 3723000 = "1034:10:00" ∧
    formatHMS 3723000 ≠ "01:02:03" ∧
    renderUtterance ⟨some "A", some 3723000, some 3723000, some "t"⟩ =
      "[1034:10:00 - 1034:10:00] Speaker A: t\n\n" := by
  refine ⟨?_, ?_, ?_⟩ <;> decide

/-- Inserting `u` with `orderedInsert` keeps every equal-key subsequence
intact: the elements skipped by the insertion have strictly smaller keys. -/
theorem filter_orderedInsert (u : Utterance) (k : Nat) :
    ∀ l : List Utterance,
      (List.orderedInsert uLe u l).filter (fun v => startKey v == k) =
        if startKey u = k then u :: l.filter (fun v => startKey v == k)
        else l.filter (fun v => startKey v == k) := by
  intro l
  induction l with
  | nil => by_cases hu : startKey u = k <;> simp [hu]
  | cons b l ih =>
    simp only [List.orderedInsert]
    by_cases hub : uLe u b
    · rw [if_pos hub]
      by_cases hu : startKey u = k <;> simp [List.filter_cons, hu]
    · rw [if_neg hub]
      have hlt : startKey b < startKey u := Nat.lt_of_not_le hub
      by_cases hu : startKey u = k
      · have hb : ¬ startKey b = k := by omega
        simp [List.filter_cons, hu, hb, ih]
      · by_cases hb : startKey b = k <;> simp [List.filter_cons, hu, hb, ih]

/-- Stability of the sort used by the formatter: for every key value, the
subsequence of utterances with that key is unchanged. -/
theorem filter_sortUtterances (us : List Utterance) (k : Nat) :
    (sortUtterances us).filter (fun v => startKey v == k) =
      us.filter (fun v => startKey v == k) := by
  induction us with
  | nil => rfl
  | cons u us ih =>
    simp only [sortUtterances, List.insertionSort] at ih ⊢
    rw [filter_orderedInsert]
    by_cases hu : startKey u = k <;> simp [List.filter_cons, hu, ih]

/-- Claim C6 (confirmed): the formatter renders the utterances sorted
ascending by `start_offset_ms`, the sort is stable (for every key value the
equal-key subsequence keeps its input order), and the spec's example with
starts `[5000, 1000, 3000]` comes out in the order `1000, 3000, 5000`. -/
theorem utterances_sorted_stable (us : List Utterance) (k : Nat) :
    List.Sorted uLe (sortUtterances us) ∧
    (sortUtterances us).filter (fun v => startKey v == k) =
      us.filter (fun v => startKey v == k) ∧
    (sortUtterances exampleUtterances).map startKey = [1000, 3000, 5000] := by
  refine ⟨List.sorted_insertionSort uLe us, filter_sortUtterances us k, by decide⟩

/-- Claim C7 (confirmed): the speaker count of the orchestrator's success
result equals the cardinality of the set of distinct speaker labels (0 for
an empty utterance list), and the report's speaker-count line, present
exactly for non-empty utterance lists, shows that same cardinality. -/
theorem speaker_count_correct (us : List Utterance) :
    speakers_count_of us = (distinctSpeakerLabels us).card ∧
    speakersLine us =
      (if us.isEmpty then ""
       else "Total de falantes: " ++ toString ((distinctSpeakerLabels us).card) ++ "\n") ∧
    speakers_count_of [] = 0 := by
  refine ⟨?_, ?_, rfl⟩
  · cases us with
    | nil => simp [speakers_count_of, distinctSpeakerLabels]
    | cons u us => simp [speakers_count_of, speakersSetLen, distinctSpeakerLabels]
  · cases us with
    | nil => simp [speakersLine]
    | cons u us => simp [speakersLine, speakersSetLen, distinctSpeakerLabels]

/-- Claim C8 (confirmed): the report text produced by `save_transcript` is
a deterministic pure function of the transcription payload; the clock
reading influences only the output path, never the report text, so two
invocations at different times yield byte-identical reports. -/
theorem formatter_deterministic_clock_free (d : TranscriptData)
    (stem now1 now2 : String) :
    (save_transcript now1 d stem).2 = (save_transcript now2 d stem).2 ∧
    (save_transcript now1 d stem).2 = saveTranscriptContent d :=
  ⟨rfl, rfl⟩

/-- Claim C10 (confirmed): the formatter renders one segment per utterance
for every payload — including utterances with `end < start` and utterances
with missing fields — never rejecting any; missing `speaker`, `start`,
`end`, `text` default to `"A"`, `0`, `0`, `""`, and inverted ordering is
rendered as-is. -/
theorem formatter_total_on_malformed (d : TranscriptData) :
    ((sortUtterances d.utterances).map renderUtterance).length = d.utterances.length ∧
    renderUtterance ⟨none, none, none, none⟩ = "[00:00:00 - 00:00:00] Speaker A: \n\n" ∧
    renderUtterance ⟨some "B", some 5, some 2, some "oi"⟩ =
      "[00:00:05 - 00:00:02] Speaker B: oi\n\n" := by
  refine ⟨?_, by decide, by decide⟩
  rw [List.length_map]
  exact (List.perm_insertionSort uLe d.utterances).length_eq

/-- Claim C9 (confirmed): submitting `/transcribe/<job_id>` for a job whose
status is not `'uploaded'` is rejected with the already-processed error and
the job map — hence every field of the job record — is left unchanged. -/
theorem reject_non_uploaded_job (jobs : List (String × Job)) (jobId : String)
    (job : Job) (hlook : lookupJob jobs jobId = some job)
    (hstat : job.status ≠ .uploaded) :
    start_transcription jobs jobId = (.alreadyProcessed, jobs) := by
  unfold start_transcription
  rw [hlook]
  simp only [beq_iff_eq]
  rw [if_neg hstat]

/-- Witness for C9: a map holding one completed job; the start request is
rejected and the map is returned unchanged. -/
theorem reject_non_uploaded_job_witness :
    start_transcription jobs9 "j1" = (.alreadyProcessed, jobs9) :=
  reject_non_uploaded_job jobs9 "j1" job9 (by decide) (by decide)

/-- After a conversion that left an output file, `transcribe_audio` is the
post-conversion pipeline applied to the conversion progress writes. -/
theorem transcribe_eq_uploadAndTranscribe (env : RunEnv)
    (hext : needsConversion env.suffix = true) (hfile : env.convFileMade = true) :
    transcribe_audio env =
      uploadAndTranscribe env true ((convertYields env).map (fun p => 10 + p * 3 / 10)) := by
  unfold transcribe_audio
  simp [hext, hfile]

/-- Every failing outcome of the post-conversion pipeline leaves the
converted file alone: the unlink runs only on the fully successful path. -/
theorem uploadAndTranscribe_fail_no_unlink (env : RunEnv) (nc : Bool)
    (convW : List Nat) (e : String)
    (h : (uploadAndTranscribe env nc convW).1 = .fail e) :
    (uploadAndTranscribe env nc convW).2.unlinkAttempted = false := by
  unfold uploadAndTranscribe at h ⊢
  cases hu : env.uploadOk with
  | false => simp [hu]
  | true =>
    simp only [hu, if_true] at h ⊢
    cases hapi : (transcribe_audio_api env).2 with
    | ok p =>
      simp only [hapi] at h ⊢
      cases hs : env.saveOk with
      | false => simp [hs]
      | true => simp [hs] at h
    | submitFailed => simp [hapi]
    | remoteError => simp [hapi]
    | timedOut => simp [hapi]

/-- The post-conversion pipeline always invokes the upload endpoint. -/
theorem uploadAndTranscribe_upload_attempted (env : RunEnv) (nc : Bool)
    (convW : List Nat) :
    (uploadAndTranscribe env nc convW).2.uploadAttempted = true := by
  unfold uploadAndTranscribe
  cases hu : env.uploadOk with
  | false => simp [hu]
  | true =>
    cases hapi : (transcribe_audio_api env).2 <;> cases hs : env.saveOk <;>
      simp [hu, hapi, hs]

/-- The post-conversion pipeline never reports a conversion failure. -/
theorem uploadAndTranscribe_ne_convfail (env : RunEnv) (nc : Bool)
    (convW : List Nat) :
    (uploadAndTranscribe env nc convW).1 ≠ .fail "Falha na conversão" := by
  unfold uploadAndTranscribe
  cases hu : env.uploadOk with
  | false => simp [hu]
  | true =>
    cases hapi : (transcribe_audio_api env).2 <;> cases hs : env.saveOk <;>
      simp [hu, hapi, hs]

/-- Claim C3, amended (corrected): when a step fails after the
normalization produced the converted file, the orchestrator does
short-circuit and transition the job to the failed state recording the
first error — but it does **not** delete the normalized temporary file:
the unlink runs only on the success path. -/
theorem failure_after_conversion_keeps_temp (env : RunEnv) (job : Job) (e : String)
    (hext : needsConversion env.suffix = true)
    (hfile : env.convFileMade = true)
    (hfail : (transcribe_audio env).1 = .fail e) :
    (transcribe_audio env).2.unlinkAttempted = false ∧
    (process_transcription env job).1.status = .error ∧
    (process_transcription env job).1.message = "Erro: " ++ e := by
  have heq := transcribe_eq_uploadAndTranscribe env hext hfile
  refine ⟨?_, ?_, ?_⟩
  · rw [heq] at hfail ⊢
    exact uploadAndTranscribe_fail_no_unlink env true _ e hfail
  · unfold process_transcription
    simp [hfail]
  · unfold process_transcription
    simp [hfail]

/-- Counterexample to claim C3 as stated: an `.ogg` run whose conversion
produced the temporary file and whose upload then failed ends in the
failure state, yet the converted file is never unlinked. -/
theorem temp_file_kept_on_upload_failure_cex :
    needsConversion cEnv3.suffix = true ∧ cEnv3.convFileMade = true ∧
    (transcribe_audio cEnv3).1 = .fail "Falha no upload" ∧
    (transcribe_audio cEnv3).2.unlinkAttempted = false := by
  refine ⟨by decide, by decide, by decide, by decide⟩

/-- Witness for the amended claim C3 at the concrete upload-failure run. -/
theorem failure_after_conversion_keeps_temp_witness :
    (transcribe_audio cEnv3).2.unlinkAttempted = false ∧
    (process_transcription cEnv3 job0).1.status = .error ∧
    (process_transcription cEnv3 job0).1.message = "Erro: " ++ "Falha no upload" :=
  failure_after_conversion_keeps_temp cEnv3 job0 "Falha no upload"
    (by decide) (by decide) (by decide)

/-- Claim C4, amended (corrected): for an input requiring normalization,
the run ends as a conversion failure exactly when no output file exists at
the `.mp3` target path after the encoder exits — the exit code itself is
never consulted — and whenever an output file exists (even a partial one
left by a failed encoder) the pipeline proceeds to upload it. -/
theorem conversion_failure_iff_no_output_file (env : RunEnv)
    (hext : needsConversion env.suffix = true) :
    ((transcribe_audio env).1 = .fail "Falha na conversão" ↔ env.convFileMade = false) ∧
    ((transcribe_audio env).2.uploadAttempted = true ↔ env.convFileMade = true) := by
  cases hf : env.convFileMade with
  | false =>
    unfold transcribe_audio
    simp [hext, hf]
  | true =>
    have heq := transcribe_eq_uploadAndTranscribe env hext hf
    rw [heq]
    constructor
    · exact iff_of_false (uploadAndTranscribe_ne_convfail env true _) (by simp)
    · exact iff_of_true (uploadAndTranscribe_upload_attempted env true _) rfl

/-- Counterexample to claim C4 as stated: ffmpeg exits non-zero but leaves
an output file; the run does not end as a conversion failure and the
pipeline proceeds to upload the partial file. -/
theorem partial_output_uploaded_cex :
    needsConversion cEnv4.suffix = true ∧ cEnv4.convExitOk = false ∧
    (transcribe_audio cEnv4).2.uploadAttempted = true ∧
    (transcribe_audio cEnv4).1 ≠ .fail "Falha na conversão" := by
  refine ⟨by decide, by decide, by decide, by decide⟩

/-- Witness for the amended claim C4 at the concrete partial-output run. -/
theorem conversion_failure_iff_no_output_file_witness :
    (transcribe_audio cEnv4).2.uploadAttempted = true :=
  ((conversion_failure_iff_no_output_file cEnv4 (by decide)).2).mpr (by decide)

/-- The polling loop issues at most as many polls as its attempt budget. -/
theorem pollLoop_polls_le (env : RunEnv) : ∀ n i, (pollLoop env i n).polls ≤ n := by
  intro n
  induction n with
  | zero => intro i; simp [pollLoop]
  | succ m ih =>
    intro i
    cases hr : env.resp i <;> simp [pollLoop, hr] <;>
      exact ih (i + 1)

/-- Every sleep performed by the polling loop lasts 5 time units. -/
theorem pollLoop_sleeps_five (env : RunEnv) :
    ∀ n i, (pollLoop env i n).sleeps =
      List.replicate (pollLoop env i n).sleeps.length 5 := by
  intro n
  induction n with
  | zero => intro i; rfl
  | succ m ih =>
    intro i
    cases hr : env.resp i <;>
      simp [pollLoop, hr, List.replicate_succ] <;>
      exact ih (i + 1)

/-- If no poll inside the budget reports `completed` or `error`, the loop
exhausts its budget and ends in the timeout outcome. -/
theorem pollLoop_timeout (env : RunEnv) :
    ∀ n i, (∀ j, j < n → env.resp (i + j) ≠ .completed ∧ env.resp (i + j) ≠ .error) →
      (pollLoop env i n).result = .timedOut := by
  intro n
  induction n with
  | zero => intro i _; rfl
  | succ m ih =>
    intro i h
    have h0 := h 0 (Nat.succ_pos m)
    rw [Nat.add_zero] at h0
    have htail : ∀ j, j < m → env.resp (i + 1 + j) ≠ .completed ∧ env.resp (i + 1 + j) ≠ .error := by
      intro j hj
      have := h (j + 1) (Nat.succ_lt_succ hj)
      rwa [show i + (j + 1) = i + 1 + j by omega] at this
    cases hr : env.resp i with
    | completed => exact absurd hr h0.1
    | error => exact absurd hr h0.2
    | queued => simpa [pollLoop, hr] using ih (i + 1) htail
    | processing => simpa [pollLoop, hr] using ih (i + 1) htail

/-- A successful `transcribe_audio` outcome requires the remote
transcription to have completed within the polling loop. -/
theorem uploadAndTranscribe_ok_api (env : RunEnv) (nc : Bool) (convW : List Nat)
    (f : String) (lg : Option String) (n : Nat)
    (h : (uploadAndTranscribe env nc convW).1 = .ok f lg n) :
    ∃ p, (transcribe_audio_api env).2 = .ok p := by
  unfold uploadAndTranscribe at h
  cases hu : env.uploadOk with
  | false => simp [hu] at h
  | true =>
    simp only [hu, if_true] at h
    cases hapi : (transcribe_audio_api env).2 with
    | ok p => exact ⟨p, rfl⟩
    | submitFailed => simp [hapi] at h
    | remoteError => simp [hapi] at h
    | timedOut => simp [hapi] at h

/-- Lifting `uploadAndTranscribe_ok_api` through the conversion branch. -/
theorem transcribe_ok_api (env : RunEnv) (f : String) (lg : Option String) (n : Nat)
    (h : (transcribe_audio env).1 = .ok f lg n) :
    ∃ p, (transcribe_audio_api env).2 = .ok p := by
  unfold transcribe_audio at h
  cases hc : needsConversion env.suffix with
  | false =>
    simp only [hc, Bool.false_eq_true, if_false] at h
    exact uploadAndTranscribe_ok_api env false [] f lg n h
  | true =>
    simp only [hc, if_true] at h
    cases hf : env.convFileMade with
    | false => simp [hf] at h
    | true =>
      simp only [hf, if_true] at h
      exact uploadAndTranscribe_ok_api env true _ f lg n h

/-- Claim C5 (confirmed): the polling loop performs at most 60 polls, each
sleep between polls is the fixed 5-unit interval, and if no poll within
the budget reports `completed` or `error` the loop ends in the timeout
outcome and the job never reaches the completed status. -/
theorem polling_bounded_timeout (env : RunEnv) (job : Job)
    (hnone : ∀ i, i < 60 → env.resp i ≠ .completed ∧ env.resp i ≠ .error) :
    (pollLoop env 0 60).polls ≤ 60 ∧
    (pollLoop env 0 60).sleeps = List.replicate (pollLoop env 0 60).sleeps.length 5 ∧
    (pollLoop env 0 60).result = .timedOut ∧
    (process_transcription env job).1.status ≠ .completed := by
  have ht : (pollLoop env 0 60).result = .timedOut := by
    apply pollLoop_timeout
    intro j hj
    simpa using hnone j hj
  refine ⟨pollLoop_polls_le env 60 0, pollLoop_sleeps_five env 60 0, ht, ?_⟩
  intro hc
  unfold process_transcription at hc
  cases hr : (transcribe_audio env).1 with
  | fail e => simp [hr] at hc
  | ok f lg n =>
    obtain ⟨p, hp⟩ := transcribe_ok_api env f lg n hr
    unfold transcribe_audio_api at hp
    cases hs : env.submitOk with
    | false => simp [hs] at hp
    | true =>
      simp only [hs, if_true] at hp
      rw [ht] at hp
      exact ApiResult.noConfusion hp

/-- Witness for C5: a run whose polls all report `processing` times out and
the job does not complete. -/
theorem polling_bounded_timeout_witness :
    (pollLoop wEnv5 0 60).polls ≤ 60 ∧
    (pollLoop wEnv5 0 60).result = .timedOut ∧
    (process_transcription wEnv5 job0).1.status ≠ .completed := by
  have h := polling_bounded_timeout wEnv5 job0 (by decide)
  exact ⟨h.1, h.2.2.1, h.2.2.2⟩

/-- Every poll writes at least 55 (`base_progress`). -/
theorem pollWrite_ge55 (env : RunEnv) (i : Nat) : 55 ≤ pollWrite env i := by
  unfold pollWrite pollProgress
  cases hr : env.resp i <;> (simp; try omega)

/-- Every poll writes at most 90 (`min(progress, 90)`). -/
theorem pollWrite_le90 (env : RunEnv) (i : Nat) : pollWrite env i ≤ 90 :=
  Nat.min_le_right _ _


/-- Between two consecutive polls of a continuing loop, the written
progress does not decrease — provided the remote status does not fall back
from `processing` to `queued`. -/
theorem pollWrite_step (env : RunEnv) (i : Nat)
    (ht : env.pollElapsed i ≤ env.pollElapsed (i + 1))
    (hs : env.resp i = .queued ∨
      (env.resp i = .processing ∧ env.resp (i + 1) ≠ .queued)) :
    pollWrite env i ≤ pollWrite env (i + 1) := by
  unfold pollWrite pollProgress
  rcases hs with h | ⟨h, h2⟩
  · rw [h]
    cases h3 : env.resp (i + 1) <;> simp <;> try omega
  · rw [h]
    cases h3 : env.resp (i + 1) with
    | queued => exact absurd h3 h2
    | processing => simp; try omega
    | completed => simp; try omega
    | error => simp; try omega

/-- A running loop's first write is the current poll's write. -/
theorem pollLoop_writes_head (env : RunEnv) (i m : Nat) :
    (pollLoop env i (m + 1)).writes.head? = some (pollWrite env i) := by
  cases hr : env.resp i <;> simp [pollLoop, hr]

/-- The write trace of the polling loop is non-decreasing and bounded in
`[55, 95]`, under monotone elapsed time and no `processing → queued`
regression of the remote status. -/
theorem pollLoop_writes_chain (env : RunEnv)
    (hpoll : ∀ i, env.pollElapsed i ≤ env.pollElapsed (i + 1))
    (hresp : ∀ i, env.resp i = .processing → env.resp (i + 1) ≠ .queued) :
    ∀ n i, List.Chain' (fun x y => x ≤ y) (pollLoop env i n).writes ∧
      ∀ x ∈ (pollLoop env i n).writes, 55 ≤ x ∧ x ≤ 95 := by
  intro n
  induction n with
  | zero => intro i; simp [pollLoop]
  | succ m ih =>
    intro i
    have hge := pollWrite_ge55 env i
    have hle := pollWrite_le90 env i
    cases hr : env.resp i with
    | completed =>
      simp only [pollLoop, hr]
      refine ⟨List.chain'_cons.mpr ⟨by omega, List.chain'_singleton 95⟩, ?_⟩
      intro x hx
      rcases List.mem_cons.mp hx with h | h
      · subst h; exact ⟨hge, by omega⟩
      · have hx95 : x = 95 := by simpa using h
        subst hx95; omega
    | error =>
      simp only [pollLoop, hr]
      refine ⟨List.chain'_singleton _, ?_⟩
      intro x hx
      have hx' : x = pollWrite env i := by simpa using hx
      subst hx'; exact ⟨hge, by omega⟩
    | queued =>
      simp only [pollLoop, hr]
      refine ⟨List.chain'_cons'.mpr ⟨?_, (ih (i + 1)).1⟩, ?_⟩
      · intro y hy
        cases m with
        | zero => simp [pollLoop] at hy
        | succ m2 =>
          rw [pollLoop_writes_head env (i + 1) m2] at hy
          have hy' : pollWrite env (i + 1) = y := by simpa using hy
          subst hy'
          exact pollWrite_step env i (hpoll i) (Or.inl hr)
      · intro x hx
        rcases List.mem_cons.mp hx with h | h
        · subst h; exact ⟨hge, by omega⟩
        · exact (ih (i + 1)).2 x h
    | processing =>
      simp only [pollLoop, hr]
      refine ⟨List.chain'_cons'.mpr ⟨?_, (ih (i + 1)).1⟩, ?_⟩
      · intro y hy
        cases m with
        | zero => simp [pollLoop] at hy
        | succ m2 =>
          rw [pollLoop_writes_head env (i + 1) m2] at hy
          have hy' : pollWrite env (i + 1) = y := by simpa using hy
          subst hy'
          exact pollWrite_step env i (hpoll i) (Or.inr ⟨hr, hresp i hr⟩)
      · intro x hx
        rcases List.mem_cons.mp hx with h | h
        · subst h; exact ⟨hge, by omega⟩
        · exact (ih (i + 1)).2 x h

/-- The writes of `transcribe_audio_api` (the leading 55 and the polling
writes) are non-decreasing and bounded in `[55, 95]`. -/
theorem api_writes_chain (env : RunEnv)
    (hpoll : ∀ i, env.pollElapsed i ≤ env.pollElapsed (i + 1))
    (hresp : ∀ i, env.resp i = .processing → env.resp (i + 1) ≠ .queued) :
    List.Chain' (fun x y => x ≤ y) (transcribe_audio_api env).1 ∧
      ∀ x ∈ (transcribe_audio_api env).1, 55 ≤ x ∧ x ≤ 95 := by
  unfold transcribe_audio_api
  cases hs : env.submitOk with
  | false => simp
  | true =>
    simp only [if_true]
    have hp := pollLoop_writes_chain env hpoll hresp 60 0
    refine ⟨List.chain'_cons'.mpr ⟨?_, hp.1⟩, ?_⟩
    · intro y hy
      exact (hp.2 y (mem_of_headOpt hy)).1
    · intro x hx
      rcases List.mem_cons.mp hx with h | h
      · subst h; omega
      · exact hp.2 x h

/-- The conversion-phase writes `10 + int(p * 0.3)` are non-decreasing when
the elapsed-time samples are. -/
theorem convWrites_chain (env : RunEnv)
    (hconv : List.Chain' (fun x y => x ≤ y) env.convElapsed) :
    List.Chain' (fun x y => x ≤ y)
      ((convertYields env).map (fun p => 10 + p * 3 / 10)) := by
  unfold convertYields
  rw [List.map_append, List.map_map]
  apply chain_le_append 37
  · rw [List.chain'_map]
    apply hconv.imp
    intro a b hab
    simp only [Function.comp]
    omega
  · cases env.convExitOk <;> simp
  · intro x hx
    rcases List.mem_map.mp hx with ⟨t, _, rfl⟩
    simp only [Function.comp]
    omega
  · intro y hy
    cases hk : env.convExitOk with
    | false => simp [hk] at hy
    | true =>
      simp only [hk, if_true] at hy
      have hy' : y = 40 := by simpa using hy
      omega

/-- The conversion-phase writes lie in `[10, 40]`. -/
theorem convWrites_bounds (env : RunEnv) :
    ∀ x ∈ (convertYields env).map (fun p => 10 + p * 3 / 10), 10 ≤ x ∧ x ≤ 40 := by
  intro x hx
  rcases List.mem_map.mp hx with ⟨p, hp, rfl⟩
  have hp100 : p ≤ 100 := by
    unfold convertYields at hp
    rcases List.mem_append.mp hp with h | h
    · rcases List.mem_map.mp h with ⟨t, _, rfl⟩; omega
    · cases hk : env.convExitOk with
      | false => simp [hk] at h
      | true =>
        simp only [hk, if_true] at h
        have hp' : p = 100 := by simpa using h
        omega
  omega

/-- The write trace of the post-conversion pipeline when the upload request
is refused. -/
theorem uploadAndTranscribe_writes_uploadFail (env : RunEnv) (nc : Bool)
    (convW : List Nat) (hu : env.uploadOk = false) :
    (uploadAndTranscribe env nc convW).2.writes = convW ++ [40] := by
  unfold uploadAndTranscribe
  simp [hu]

/-- The write trace of the post-conversion pipeline when the remote
transcription does not complete. -/
theorem uploadAndTranscribe_writes_apiFail (env : RunEnv) (nc : Bool)
    (convW : List Nat) (hu : env.uploadOk = true)
    (hr : (transcribe_audio_api env).2 = .submitFailed ∨
      (transcribe_audio_api env).2 = .remoteError ∨
      (transcribe_audio_api env).2 = .timedOut) :
    (uploadAndTranscribe env nc convW).2.writes =
      convW ++ [40] ++ [50, 50] ++ (transcribe_audio_api env).1 := by
  unfold uploadAndTranscribe
  rcases hr with h | h | h <;> simp [hu, h]

/-- The write trace of the post-conversion pipeline when the transcription
completes but writing the transcript file fails. -/
theorem uploadAndTranscribe_writes_saveFail (env : RunEnv) (nc : Bool)
    (convW : List Nat) (p : TranscriptData) (hu : env.uploadOk = true)
    (hr : (transcribe_audio_api env).2 = .ok p) (hs : env.saveOk = false) :
    (uploadAndTranscribe env nc convW).2.writes =
      convW ++ [40] ++ [50, 50] ++ (transcribe_audio_api env).1 ++ [95] := by
  unfold uploadAndTranscribe
  simp [hu, hr, hs]

/-- The write trace of the post-conversion pipeline on full success. -/
theorem uploadAndTranscribe_writes_success (env : RunEnv) (nc : Bool)
    (convW : List Nat) (p : TranscriptData) (hu : env.uploadOk = true)
    (hr : (transcribe_audio_api env).2 = .ok p) (hs : env.saveOk = true) :
    (uploadAndTranscribe env nc convW).2.writes =
      convW ++ [40] ++ [50, 50] ++ (transcribe_audio_api env).1 ++ [95] ++ [100] := by
  unfold uploadAndTranscribe
  simp [hu, hr, hs]

/-- The writes of the post-conversion pipeline are non-decreasing and lie
in `[10, 100]`, given a non-decreasing conversion section in `[10, 40]`. -/
theorem uploadAndTranscribe_writes (env : RunEnv) (nc : Bool) (convW : List Nat)
    (hc : List.Chain' (fun x y => x ≤ y) convW)
    (hb : ∀ x ∈ convW, 10 ≤ x ∧ x ≤ 40)
    (hpoll : ∀ i, env.pollElapsed i ≤ env.pollElapsed (i + 1))
    (hresp : ∀ i, env.resp i = .processing → env.resp (i + 1) ≠ .queued) :
    List.Chain' (fun x y => x ≤ y) (uploadAndTranscribe env nc convW).2.writes ∧
      ∀ x ∈ (uploadAndTranscribe env nc convW).2.writes, 10 ≤ x ∧ x ≤ 100 := by
  have hapi := api_writes_chain env hpoll hresp
  have hA := chainSeg_append 10 40 40 hc (List.chain'_singleton 40) hb
    (by intro x hx; simp at hx; omega) (by omega) (by omega)
  have c5050 : List.Chain' (fun x y => x ≤ y) ([50, 50] : List Nat) :=
    List.chain'_cons.mpr ⟨by omega, List.chain'_singleton 50⟩
  have hB := chainSeg_append 10 40 50 hA.1 c5050 hA.2
    (by intro x hx; simp at hx; omega) (by omega) (by omega)
  have hBA := chainSeg_append 10 50 95 hB.1 hapi.1 hB.2
    (fun x hx => ⟨by have := (hapi.2 x hx).1; omega, (hapi.2 x hx).2⟩)
    (by omega) (by omega)
  have hD95 := chainSeg_append 10 95 95 hBA.1 (List.chain'_singleton 95) hBA.2
    (by intro x hx; simp at hx; omega) (by omega) (by omega)
  have hE := chainSeg_append 10 95 100 hD95.1 (List.chain'_singleton 100)
    (fun x hx => ⟨(hD95.2 x hx).1, (hD95.2 x hx).2⟩)
    (by intro x hx; simp at hx; omega) (by omega) (by omega)
  cases hu : env.uploadOk with
  | false =>
    rw [uploadAndTranscribe_writes_uploadFail env nc convW hu]
    exact ⟨hA.1, fun x hx => ⟨(hA.2 x hx).1, by have := (hA.2 x hx).2; omega⟩⟩
  | true =>
    cases hr : (transcribe_audio_api env).2 with
    | ok p =>
      cases hs : env.saveOk with
      | false =>
        rw [uploadAndTranscribe_writes_saveFail env nc convW p hu hr hs]
        exact ⟨hD95.1, fun x hx => ⟨(hD95.2 x hx).1, by have := (hD95.2 x hx).2; omega⟩⟩
      | true =>
        rw [uploadAndTranscribe_writes_success env nc convW p hu hr hs]
        exact hE
    | submitFailed =>
      rw [uploadAndTranscribe_writes_apiFail env nc convW hu (Or.inl hr)]
      exact ⟨hBA.1, fun x hx => ⟨(hBA.2 x hx).1, by have := (hBA.2 x hx).2; omega⟩⟩
    | remoteError =>
      rw [uploadAndTranscribe_writes_apiFail env nc convW hu (Or.inr (Or.inl hr))]
      exact ⟨hBA.1, fun x hx => ⟨(hBA.2 x hx).1, by have := (hBA.2 x hx).2; omega⟩⟩
    | timedOut =>
      rw [uploadAndTranscribe_writes_apiFail env nc convW hu (Or.inr (Or.inr hr))]
      exact ⟨hBA.1, fun x hx => ⟨(hBA.2 x hx).1, by have := (hBA.2 x hx).2; omega⟩⟩

/-- The full write trace of `transcribe_audio` is non-decreasing and lies
in `[10, 100]`. -/
theorem transcribe_writes (env : RunEnv)
    (hconv : List.Chain' (fun x y => x ≤ y) env.convElapsed)
    (hpoll : ∀ i, env.pollElapsed i ≤ env.pollElapsed (i + 1))
    (hresp : ∀ i, env.resp i = .processing → env.resp (i + 1) ≠ .queued) :
    List.Chain' (fun x y => x ≤ y) (transcribe_audio env).2.writes ∧
      ∀ x ∈ (transcribe_audio env).2.writes, 10 ≤ x ∧ x ≤ 100 := by
  unfold transcribe_audio
  cases hcv : needsConversion env.suffix with
  | false =>
    simp only [Bool.false_eq_true, if_false]
    exact uploadAndTranscribe_writes env false [] List.chain'_nil (by simp) hpoll hresp
  | true =>
    simp only [if_true]
    cases hf : env.convFileMade with
    | false =>
      simp only [Bool.false_eq_true, if_false]
      exact ⟨convWrites_chain env hconv, fun x hx =>
        ⟨(convWrites_bounds env x hx).1, by have := (convWrites_bounds env x hx).2; omega⟩⟩
    | true =>
      simp only [if_true]
      exact uploadAndTranscribe_writes env true _ (convWrites_chain env hconv)
        (convWrites_bounds env) hpoll hresp

/-- Claim C2, amended (corrected): over one run, the sequence of values
written to the job's `progress` field (entry, conversion, upload,
submission, every polling iteration, completion) is monotonically
non-decreasing — provided the elapsed-time samples are non-decreasing and
the remote status never falls back from `processing` to `queued` between
consecutive polls.  Without that last proviso the claim is false
(`progress_regression_cex`). -/
theorem progress_writes_monotone (env : RunEnv) (job : Job)
    (hconv : List.Chain' (fun x y => x ≤ y) env.convElapsed)
    (hpoll : ∀ i, env.pollElapsed i ≤ env.pollElapsed (i + 1))
    (hresp : ∀ i, env.resp i = .processing → env.resp (i + 1) ≠ .queued) :
    List.Chain' (fun x y => x ≤ y) (runProgressWrites env job) := by
  have hW := transcribe_writes env hconv hpoll hresp
  have hP : List.Chain' (fun x y => x ≤ y) (10 :: (transcribe_audio env).2.writes) ∧
      ∀ x ∈ 10 :: (transcribe_audio env).2.writes, 10 ≤ x ∧ x ≤ 100 := by
    refine ⟨List.chain'_cons'.mpr ⟨?_, hW.1⟩, ?_⟩
    · intro y hy
      exact (hW.2 y (mem_of_headOpt hy)).1
    · intro x hx
      rcases List.mem_cons.mp hx with h | h
      · subst h; omega
      · exact hW.2 x h
  unfold runProgressWrites process_transcription
  cases hr : (transcribe_audio env).1 with
  | ok f lg n =>
    simp only [hr]
    have hPW := chainSeg_append 10 100 100 hP.1 (List.chain'_singleton 100) hP.2
      (by intro x hx; simp at hx; omega) (by omega) (by omega)
    exact List.chain'_cons'.mpr ⟨fun y _ => Nat.zero_le y, hPW.1⟩
  | fail e =>
    simp only [hr]
    exact List.chain'_cons'.mpr ⟨fun y _ => Nat.zero_le y, hP.1⟩

/-- Counterexample to claim C2 as stated: with the contract-conforming
response sequence `processing, processing, queued, completed` the run
writes `..., 65, 80, 65, ...` — the progress regresses from 80 to 65. -/
theorem progress_regression_cex :
    ¬ List.Chain' (fun x y => x ≤ y) (runProgressWrites cEnv2 job0) := by
  intro h
  have he : runProgressWrites cEnv2 job0 =
      [0, 10, 40, 50, 50, 55, 65, 80, 65, 90, 95, 95, 100, 100] := by decide
  rw [he] at h
  simp [List.chain'_cons, List.chain'_singleton] at h

/-- Witness for the amended claim C2: a fully successful `.ogg` run with
monotone clocks and non-regressing remote statuses has a non-decreasing
progress trace. -/
theorem progress_writes_monotone_witness :
    List.Chain' (fun x y => x ≤ y) (runProgressWrites wEnv2 job0) := by
  apply progress_writes_monotone wEnv2 job0
  · show List.Chain' (fun x y => x ≤ y) [0, 1000]
    exact List.chain'_cons.mpr ⟨by omega, List.chain'_singleton 1000⟩
  · intro i; simp [wEnv2]
  · intro i h
    simp [wEnv2] at h

end Transcricao
